import Mathlib

/-
Shallow embedding of the generic repository core of
firefly-oss/python-microservice-scaffolding:

  app/models/base.py        (Base: id, created_at, updated_at columns)
  app/models/item.py        (Item: name, description, is_active columns)
  app/schemas/item.py       (ItemCreate, ItemUpdate Pydantic schemas)
  app/repositories/base.py  (CRUDRepository: get, get_multi, filter,
                             create, update, remove)
  app/services/item_service.py (get_items, create_item, get_item,
                             update_item, delete_item)

Timestamps are modelled as natural numbers (the wall clock value at which an
operation runs is passed explicitly).  The `item` table is a list of rows in
insertion (rowid) order.  Column nullability follows the SQLAlchemy column
declarations: `id` is NULL until the store assigns it (`Option Nat`),
`name` is NOT NULL (`String`), `description` is nullable (`Option String`),
and `is_active` is declared `Column(Boolean, default=True)` with no
`nullable=False`, hence nullable (`Option Bool`).
-/

namespace Scaffold

/-- A persisted row of the `item` table: the columns of `Base`
(id, created_at, updated_at) plus those of `Item`
(name NOT NULL, description nullable, is_active nullable). -/
structure Item where
  id : Option Nat
  created_at : Nat
  updated_at : Nat
  name : String
  description : Option String
  is_active : Option Bool
deriving Repr, DecidableEq

/-- The storage state seen through one session: the `item` table rows in
rowid order, the next autoincrement primary key value, and the last wall
clock instant observed (used only to state clock monotonicity). -/
structure DB where
  items : List Item
  nextId : Nat
  now : Nat
deriving Repr, DecidableEq

/-- The empty store: no rows, first assigned primary key is 1. -/
def initDB : DB := { items := [], nextId := 1, now := 0 }

/-- Pydantic schema `ItemCreate` (= `ItemBase`): `name : str` required,
`description : Optional[str] = None`, `is_active : bool = True`.
`is_active` is a plain bool here, so a created row never has a NULL
`is_active`. -/
structure ItemCreate where
  name : String
  description : Option String := none
  is_active : Bool := true
deriving Repr, DecidableEq

/-- Pydantic schema `ItemUpdate` after `.dict(exclude_unset=True)`: each
field is either absent (unset, `none`) or present with its value.  A present
`description` or `is_active` may carry an explicit null (`some none`), since
both are `Optional[...]` and both columns are nullable.  `name` is a NOT
NULL column: an update writing NULL to it fails the commit and persists
nothing, so a present `name` carries a string. -/
structure ItemUpdate where
  name : Option String := none
  description : Option (Option String) := none
  is_active : Option (Option Bool) := none
deriving Repr, DecidableEq

/-- The pagination metadata dict built by `get_multi` and `filter`. -/
structure PageInfo where
  total : Nat
  skip : Nat
  limit : Nat
  has_more : Bool
deriving Repr, DecidableEq

/-- A Python value usable on the right-hand side of a `filters` dict entry:
an int, a string, a bool, or None (SQLAlchemy renders `column == None` as
`IS NULL`). -/
inductive FVal where
  | vNat (n : Nat)
  | vStr (s : String)
  | vBool (b : Bool)
  | vNull
deriving Repr, DecidableEq

/-- The mapped column attribute names of the `Item` model, i.e. the names
for which `hasattr(self.model, field)` holds in `CRUDRepository.filter`. -/
def itemColumns : List String :=
  ["id", "created_at", "updated_at", "name", "description", "is_active"]

/-- The `hasattr(self.model, field)` test of `CRUDRepository.filter`,
scoped to the mapped columns of `Item`. -/
def hasattrItem (f : String) : Bool := itemColumns.contains f

/-- One filter condition `getattr(self.model, field) == value` evaluated on
a row, with SQL three-valued logic collapsed to Bool: comparing a NULL
column with a non-null literal never matches, `== None` is `IS NULL`, and a
comparison between a column and a literal of another type never matches. -/
def evalCond (it : Item) : String × FVal → Bool
  | ("id", FVal.vNat n) => it.id == some n
  | ("id", FVal.vNull) => it.id == none
  | ("created_at", FVal.vNat n) => it.created_at == n
  | ("updated_at", FVal.vNat n) => it.updated_at == n
  | ("name", FVal.vStr s) => it.name == s
  | ("description", FVal.vStr s) => it.description == some s
  | ("description", FVal.vNull) => it.description == none
  | ("is_active", FVal.vBool b) => it.is_active == some b
  | ("is_active", FVal.vNull) => it.is_active == none
  | _ => false

/-- `CRUDRepository.get`:
`db.query(self.model).filter(self.model.id == id).first()`. -/
def CRUDRepository.get (db : DB) (id : Nat) : Option Item :=
  db.items.find? (fun it => it.id == some id)

/-- `CRUDRepository.get_multi`: count before windowing when pagination is
requested, then `offset(skip).limit(limit)`.  The `Union` return type of
the source is rendered as a pair whose second component is the pagination
dict exactly when `with_pagination` is true. -/
def CRUDRepository.get_multi (db : DB) (skip limit : Nat)
    (with_pagination : Bool) : List Item × Option PageInfo :=
  let query := db.items
  let items := (query.drop skip).take limit
  if with_pagination then
    (items, some { total := query.length, skip := skip, limit := limit,
                   has_more := decide (query.length > skip + limit) })
  else
    (items, none)

/-- `CRUDRepository.filter`: build `filter_conditions` from the entries of
`filters` whose field name is a model attribute, apply
`query.filter(and_(*filter_conditions))` only when the list is non-empty,
then count (if pagination requested) and window exactly as `get_multi`. -/
def CRUDRepository.filter (db : DB) (filters : List (String × FVal))
    (skip limit : Nat) (with_pagination : Bool) :
    List Item × Option PageInfo :=
  let filter_conditions := filters.filter (fun p => hasattrItem p.1)
  let query :=
    if filter_conditions.isEmpty then db.items
    else db.items.filter (fun it => filter_conditions.all (evalCond it))
  let items := (query.drop skip).take limit
  if with_pagination then
    (items, some { total := query.length, skip := skip, limit := limit,
                   has_more := decide (query.length > skip + limit) })
  else
    (items, none)

/-- `CRUDRepository.create` with the two `default=datetime.utcnow`
callables evaluated independently during the INSERT: `created_at` receives
the first clock read `t1` and `updated_at` the second read `t2` (the
defaults are separate `datetime.utcnow` calls, so the two values differ
whenever the clock advances between them); the store assigns the
autoincrement primary key. -/
def CRUDRepository.create (db : DB) (obj_in : ItemCreate) (t1 t2 : Nat) :
    Item × DB :=
  let db_obj : Item :=
    { id := some db.nextId, created_at := t1, updated_at := t2,
      name := obj_in.name, description := obj_in.description,
      is_active := some obj_in.is_active }
  (db_obj, { db with items := db.items ++ [db_obj], nextId := db.nextId + 1 })

/-- Whether the flush emits an UPDATE statement for the row: SQLAlchemy's
flush includes a column in the UPDATE only when the set value differs from
the committed value, and emits no UPDATE at all — so
`onupdate=datetime.utcnow` never fires — when every value set by the loop
equals the value already committed.  True exactly when some field present
in the (exclude-unset) update data carries a value different from the
row's current one. -/
def netChange (db_obj : Item) (u : ItemUpdate) : Bool :=
  (match u.name with
   | some v => v != db_obj.name
   | none => false) ||
  (match u.description with
   | some v => v != db_obj.description
   | none => false) ||
  (match u.is_active with
   | some v => v != db_obj.is_active
   | none => false)

/-- `CRUDRepository.update` on one row at wall clock instant `t`: the loop
`for field in obj_data: if field in update_data: setattr(...)` overwrites
each field present in `update_data` (for the `ItemUpdate` schema these can
only be name, description, is_active), and the commit refreshes
`updated_at` via `onupdate=datetime.utcnow` exactly when the flush emits
an UPDATE, i.e. when some set value differs from the committed one. -/
def CRUDRepository.update (db_obj : Item) (u : ItemUpdate) (t : Nat) :
    Item :=
  let s1 : Item := match u.name with
    | some v => { db_obj with name := v }
    | none => db_obj
  let s2 : Item := match u.description with
    | some v => { s1 with description := v }
    | none => s1
  let s3 : Item := match u.is_active with
    | some v => { s2 with is_active := v }
    | none => s2
  if netChange db_obj u then { s3 with updated_at := t } else s3

/-- Error raised out of `CRUDRepository.remove`.  `unmappedInstance` is
`sqlalchemy.orm.exc.UnmappedInstanceError`, raised by
`session.delete(None)`; `notFound` is the explicit NotFound-class condition
the specification calls for (never produced by this code). -/
inductive RepoError where
  | unmappedInstance
  | notFound
deriving Repr, DecidableEq

/-- `CRUDRepository.remove`: `obj = db.query(self.model).get(id)` (primary
key lookup, `None` when absent) followed by `db.delete(obj)`.  When `obj`
is `None` the session raises `UnmappedInstanceError`; otherwise the row is
deleted and the pre-deletion snapshot returned. -/
def CRUDRepository.remove (db : DB) (id : Nat) :
    Except RepoError (Item × DB) :=
  match CRUDRepository.get db id with
  | none => Except.error RepoError.unmappedInstance
  | some obj =>
      Except.ok (obj,
        { db with items := db.items.eraseP (fun it => it.id == some id) })

/-- `item_service.create_item`: pure delegation to the repository create
(`t1`, `t2` are the two per-column clock reads of the insert). -/
def item_service.create_item (db : DB) (item_in : ItemCreate)
    (t1 t2 : Nat) : Item × DB :=
  CRUDRepository.create db item_in t1 t2

/-- `item_service.get_item`: pure delegation to the repository get. -/
def item_service.get_item (db : DB) (id : Nat) : Option Item :=
  CRUDRepository.get db id

/-- `item_service.update_item`: look the row up, return `None` when absent,
otherwise update it in place and return it.  The row keeps its position in
the table (an UPDATE does not move it); under the primary key constraint at
most one row matches the id. -/
def item_service.update_item (db : DB) (id : Nat) (item_in : ItemUpdate)
    (t : Nat) : Option Item × DB :=
  match CRUDRepository.get db id with
  | none => (none, db)
  | some item =>
      (some (CRUDRepository.update item item_in t),
       { db with items := db.items.map (fun x =>
           if x.id == some id then CRUDRepository.update x item_in t
           else x) })

/-- `item_service.delete_item`: look the row up, return `None` when absent,
otherwise delete through the repository.  The error branch of the inner
match is unreachable because the guard just found the row. -/
def item_service.delete_item (db : DB) (id : Nat) : Option Item × DB :=
  match CRUDRepository.get db id with
  | none => (none, db)
  | some _ =>
      match CRUDRepository.remove db id with
      | Except.ok (item, db') => (some item, db')
      | Except.error _ => (none, db)

/-- One mutating service operation, as invoked from the HTTP layer. -/
inductive Op where
  | create (item_in : ItemCreate)
  | update (id : Nat) (item_in : ItemUpdate)
  | remove (id : Nat)
deriving Repr, DecidableEq

/-- Run one operation whose clock reads occur at instants `t` and `t'`
(`t` first, `t'` second): a create reads the clock once per timestamp
column default, an update reads it once for `onupdate`, a delete reads no
clock.  `t'` is recorded as the last observed clock value. -/
def applyOp (db : DB) (op : Op) (t t' : Nat) : DB :=
  let db' := match op with
    | Op.create item_in => (item_service.create_item db item_in t t').2
    | Op.update id item_in => (item_service.update_item db id item_in t').2
    | Op.remove id => (item_service.delete_item db id).2
  { db' with now := t' }

/-- The store states reachable from the empty store by service operations
whose clock reads are monotonically non-decreasing, across operations and
within one operation. -/
inductive Reachable : DB → Prop where
  | init : Reachable initDB
  | step {db : DB} (op : Op) (t t' : Nat) :
      Reachable db → db.now ≤ t → t ≤ t' → Reachable (applyOp db op t t')

/-- Per-row well-formedness relative to the store: consistent timestamps,
no timestamp beyond the last observed clock value, and a non-null primary
key below the autoincrement counter. -/
def RowOk (db : DB) (it : Item) : Prop :=
  it.created_at ≤ it.updated_at ∧ it.updated_at ≤ db.now ∧
  ∃ n, it.id = some n ∧ n < db.nextId

/-- Store well-formedness: pairwise distinct primary keys and every row
well-formed. -/
def Wf (db : DB) : Prop :=
  db.items.Pairwise (fun a b => a.id ≠ b.id) ∧ ∀ it ∈ db.items, RowOk db it

/-- The rows matching a filter set before any windowing: the equality
conditions for the known column names, conjoined over the whole table. -/
def matchingRows (db : DB) (filters : List (String × FVal)) : List Item :=
  db.items.filter (fun it =>
    (filters.filter (fun p => hasattrItem p.1)).all (evalCond it))

lemma filter_all_nil (rows : List Item) :
    rows.filter (fun it =>
      ([] : List (String × FVal)).all (evalCond it)) = rows := by
  simp

/-- The query built by `CRUDRepository.filter` (no conditions: unfiltered;
otherwise: conjunction of the conditions) is the matching-rows list. -/
lemma filterQuery_eq_matchingRows (db : DB)
    (filters : List (String × FVal)) :
    (if (filters.filter (fun p => hasattrItem p.1)).isEmpty then db.items
     else db.items.filter (fun it =>
       (filters.filter (fun p => hasattrItem p.1)).all (evalCond it)))
      = matchingRows db filters := by
  cases hc : filters.filter (fun p => hasattrItem p.1) with
  | nil => simp [matchingRows, hc]
  | cons c cs => simp [matchingRows, hc]

lemma update_id_eq (db_obj : Item) (u : ItemUpdate) (t : Nat) :
    (CRUDRepository.update db_obj u t).id = db_obj.id := by
  obtain ⟨n, d, a⟩ := u
  cases n <;> cases d <;> cases a <;>
    simp [CRUDRepository.update, apply_ite Item.id]

lemma update_created_at_eq (db_obj : Item) (u : ItemUpdate) (t : Nat) :
    (CRUDRepository.update db_obj u t).created_at = db_obj.created_at := by
  obtain ⟨n, d, a⟩ := u
  cases n <;> cases d <;> cases a <;>
    simp [CRUDRepository.update, apply_ite Item.created_at]

lemma update_updated_at_eq (db_obj : Item) (u : ItemUpdate) (t : Nat) :
    (CRUDRepository.update db_obj u t).updated_at =
      if netChange db_obj u then t else db_obj.updated_at := by
  obtain ⟨n, d, a⟩ := u
  cases n <;> cases d <;> cases a <;>
    simp [CRUDRepository.update, netChange, apply_ite Item.updated_at]

/-- C2: with pagination requested, `filter` applies the equality filters
first, takes `total` as the count of all matching rows ignoring the window,
windows by `skip`/`limit`, and reports `has_more = (total > skip + limit)`;
`get_multi` does the same with no filters (all rows match). -/
theorem pagination_windowing_spec (db : DB)
    (filters : List (String × FVal)) (skip limit : Nat) :
    CRUDRepository.filter db filters skip limit true =
      (((matchingRows db filters).drop skip).take limit,
       some { total := (matchingRows db filters).length, skip := skip,
              limit := limit,
              has_more :=
                decide ((matchingRows db filters).length > skip + limit) }) ∧
    CRUDRepository.get_multi db skip limit true =
      (((db.items).drop skip).take limit,
       some { total := db.items.length, skip := skip, limit := limit,
              has_more := decide (db.items.length > skip + limit) }) := by
  constructor
  · have hq := filterQuery_eq_matchingRows db filters
    simp only [CRUDRepository.filter, hq]
    rfl
  · rfl

/-- C10: the `with_pagination` flag changes neither the returned rows nor
their order, in `get_multi` and in `filter`; it only adds the metadata
component. -/
theorem with_pagination_flag_preserves_items (db : DB)
    (filters : List (String × FVal)) (skip limit : Nat) :
    (CRUDRepository.get_multi db skip limit true).1 =
      (CRUDRepository.get_multi db skip limit false).1 ∧
    (CRUDRepository.filter db filters skip limit true).1 =
      (CRUDRepository.filter db filters skip limit false).1 ∧
    (CRUDRepository.get_multi db skip limit true).2.isSome = true ∧
    (CRUDRepository.get_multi db skip limit false).2 = none ∧
    (CRUDRepository.filter db filters skip limit true).2.isSome = true ∧
    (CRUDRepository.filter db filters skip limit false).2 = none := by
  refine ⟨rfl, rfl, rfl, rfl, ?_, rfl⟩
  simp only [CRUDRepository.filter]
  rfl

/-- C7: a paginated `get_multi` page carries metadata, holds at most
`limit` rows, and its row count never exceeds the reported total. -/
theorem list_page_length_bounds (db : DB) (skip limit : Nat) :
    ∃ p : PageInfo,
      (CRUDRepository.get_multi db skip limit true).2 = some p ∧
      (CRUDRepository.get_multi db skip limit true).1.length ≤ limit ∧
      (CRUDRepository.get_multi db skip limit true).1.length ≤ p.total := by
  refine ⟨_, rfl, ?_, ?_⟩
  · simp [CRUDRepository.get_multi, List.length_take]
  · simp [CRUDRepository.get_multi, List.length_take, List.length_drop]

/-- C3: the repository update overwrites exactly the fields present in the
(exclude-unset) update data; fields absent from it keep their prior value,
and `id` and `created_at` are never part of the update data for the
`ItemUpdate` schema, hence always retained. -/
theorem update_merges_exactly_present_fields (db_obj : Item)
    (u : ItemUpdate) (t : Nat) :
    (CRUDRepository.update db_obj u t).name = u.name.getD db_obj.name ∧
    (CRUDRepository.update db_obj u t).description =
      u.description.getD db_obj.description ∧
    (CRUDRepository.update db_obj u t).is_active =
      u.is_active.getD db_obj.is_active ∧
    (CRUDRepository.update db_obj u t).id = db_obj.id ∧
    (CRUDRepository.update db_obj u t).created_at = db_obj.created_at := by
  obtain ⟨n, d, a⟩ := u
  cases n <;> cases d <;> cases a <;>
    simp [CRUDRepository.update, apply_ite Item.name,
      apply_ite Item.description, apply_ite Item.is_active,
      apply_ite Item.id, apply_ite Item.created_at]

/-- C4 counterexample: the two timestamp column defaults are independent
`datetime.utcnow` evaluations, so when the clock advances between them
(first read 0, second read 1) the created entity has
`created_at ≠ updated_at`, refuting the claimed equality; the id half of
the claim still holds at the same input. -/
theorem create_two_clock_reads_counterexample :
    (item_service.create_item initDB { name := "a" } 0 1).1.created_at = 0 ∧
    (item_service.create_item initDB { name := "a" } 0 1).1.updated_at = 1 ∧
    (item_service.create_item initDB { name := "a" } 0 1).1.created_at ≠
      (item_service.create_item initDB { name := "a" } 0 1).1.updated_at ∧
    (item_service.create_item initDB { name := "a" } 0 1).1.id = some 1 :=
  ⟨rfl, rfl, by decide, rfl⟩

/-- C4 amended: a created entity carries the store-assigned (non-null)
autoincrement id; `created_at` and `updated_at` receive the two clock
reads performed during the insert, and coincide exactly when those reads
return the same instant (the clock did not advance between them). -/
theorem create_assigns_id_and_timestamps (db : DB)
    (obj_in : ItemCreate) (t1 t2 : Nat) :
    (item_service.create_item db obj_in t1 t2).1.id = some db.nextId ∧
    ((item_service.create_item db obj_in t1 t2).1.id).isSome = true ∧
    (item_service.create_item db obj_in t1 t2).1.created_at = t1 ∧
    (item_service.create_item db obj_in t1 t2).1.updated_at = t2 ∧
    (t1 = t2 →
      (item_service.create_item db obj_in t1 t2).1.created_at =
        (item_service.create_item db obj_in t1 t2).1.updated_at) :=
  ⟨rfl, rfl, rfl, rfl, fun h => by simp [item_service.create_item,
    CRUDRepository.create, h]⟩

/-- Witness for the amended C4 with coinciding clock reads. -/
theorem create_assigns_id_and_timestamps_witness :
    (item_service.create_item initDB { name := "a" } 3 3).1.created_at =
      (item_service.create_item initDB { name := "a" } 3 3).1.updated_at :=
  (create_assigns_id_and_timestamps initDB { name := "a" } 3 3).2.2.2.2 rfl

/-- C5 counterexample: an update whose only present field equals the row's
current value (`{"name": "a"}` on a row already named `"a"`) marks the
object dirty but the flush emits no UPDATE, so `onupdate` never fires and
`updated_at` stays at its old value even though the clock advanced —
refuting the claimed strict increase. -/
theorem update_same_value_counterexample :
    (({ name := some "a" } : ItemUpdate).name).isSome = true ∧
    (3 : Nat) < 7 ∧
    (CRUDRepository.update
      { id := some 1, created_at := 0, updated_at := 3, name := "a",
        description := none, is_active := some true }
      { name := some "a" } 7).updated_at = 3 ∧
    ¬ (3 < (CRUDRepository.update
      { id := some 1, created_at := 0, updated_at := 3, name := "a",
        description := none, is_active := some true }
      { name := some "a" } 7).updated_at) :=
  ⟨rfl, by decide, rfl, by decide⟩

/-- C5 amended: when some field present in the update input differs from
the row's current value, the flush emits an UPDATE and `onupdate` stamps
`updated_at` with the current clock value, so whenever the clock has
advanced past the row's previous `updated_at` the new value is strictly
greater; when no present field differs, no UPDATE is emitted and
`updated_at` is unchanged. -/
theorem update_net_change_refreshes_updated_at (db_obj : Item)
    (u : ItemUpdate) (t : Nat) :
    (netChange db_obj u = true → db_obj.updated_at < t →
      db_obj.updated_at < (CRUDRepository.update db_obj u t).updated_at) ∧
    (netChange db_obj u = false →
      (CRUDRepository.update db_obj u t).updated_at =
        db_obj.updated_at) := by
  constructor
  · intro hchange hclock
    rw [update_updated_at_eq, hchange]
    exact hclock
  · intro hnone
    rw [update_updated_at_eq, hnone]
    simp

/-- Witness for the amended C5 at a concrete row, with a value-changing
update and with a same-value update. -/
theorem update_net_change_refreshes_updated_at_witness :
    ({ id := some 1, created_at := 0, updated_at := 3, name := "a",
       description := none, is_active := some true } : Item).updated_at <
      (CRUDRepository.update
        { id := some 1, created_at := 0, updated_at := 3, name := "a",
          description := none, is_active := some true }
        { name := some "b" } 7).updated_at ∧
    (CRUDRepository.update
      { id := some 1, created_at := 0, updated_at := 3, name := "a",
        description := none, is_active := some true }
      { name := some "a" } 7).updated_at =
      ({ id := some 1, created_at := 0, updated_at := 3, name := "a",
         description := none, is_active := some true } : Item).updated_at :=
  ⟨(update_net_change_refreshes_updated_at _ { name := some "b" } 7).1
      (by decide) (by decide),
   (update_net_change_refreshes_updated_at _ { name := some "a" } 7).2
      (by decide)⟩

lemma applyOp_create_eq (db : DB) (obj_in : ItemCreate) (t t' : Nat) :
    applyOp db (Op.create obj_in) t t' =
      { items := db.items ++
          [{ id := some db.nextId, created_at := t, updated_at := t',
             name := obj_in.name, description := obj_in.description,
             is_active := some obj_in.is_active }],
        nextId := db.nextId + 1, now := t' } := rfl

lemma applyOp_update_none (db : DB) (id : Nat) (u : ItemUpdate)
    (t t' : Nat) (h : CRUDRepository.get db id = none) :
    applyOp db (Op.update id u) t t' = { db with now := t' } := by
  simp [applyOp, item_service.update_item, h]

lemma applyOp_update_some (db : DB) (id : Nat) (u : ItemUpdate)
    (t t' : Nat) (it : Item) (h : CRUDRepository.get db id = some it) :
    applyOp db (Op.update id u) t t' =
      { db with
        items := db.items.map (fun x =>
          if x.id == some id then CRUDRepository.update x u t' else x),
        now := t' } := by
  simp [applyOp, item_service.update_item, h]

lemma applyOp_remove_none (db : DB) (id : Nat) (t t' : Nat)
    (h : CRUDRepository.get db id = none) :
    applyOp db (Op.remove id) t t' = { db with now := t' } := by
  simp [applyOp, item_service.delete_item, h]

lemma applyOp_remove_some (db : DB) (id : Nat) (t t' : Nat) (it : Item)
    (h : CRUDRepository.get db id = some it) :
    applyOp db (Op.remove id) t t' =
      { db with
        items := db.items.eraseP (fun x => x.id == some id),
        now := t' } := by
  simp [applyOp, item_service.delete_item, CRUDRepository.remove, h]

lemma wf_initDB : Wf initDB := by
  constructor
  · simp [initDB]
  · intro it h
    simp [initDB] at h

lemma wf_applyOp {db : DB} (op : Op) (t t' : Nat) (hwf : Wf db)
    (hle : db.now ≤ t) (hle2 : t ≤ t') : Wf (applyOp db op t t') := by
  obtain ⟨hpw, hrows⟩ := hwf
  have hle' : db.now ≤ t' := le_trans hle hle2
  cases op with
  | create obj_in =>
      rw [applyOp_create_eq]
      constructor
      · rw [List.pairwise_append]
        refine ⟨hpw, List.pairwise_singleton _ _, ?_⟩
        intro a ha b hb
        obtain ⟨_, _, n, hid, hlt⟩ := hrows a ha
        simp only [List.mem_singleton] at hb
        subst hb
        simp [hid]
        omega
      · intro it hit
        rcases List.mem_append.mp hit with hmem | hmem
        · obtain ⟨h1, h2, n, hid, hlt⟩ := hrows it hmem
          exact ⟨h1, le_trans h2 hle', n, hid, Nat.lt_succ_of_lt hlt⟩
        · simp only [List.mem_singleton] at hmem
          subst hmem
          exact ⟨hle2, le_refl t', db.nextId, rfl, Nat.lt_succ_self _⟩
  | update id u =>
      cases hget : CRUDRepository.get db id with
      | none =>
          rw [applyOp_update_none db id u t t' hget]
          refine ⟨hpw, ?_⟩
          intro it hit
          obtain ⟨h1, h2, n, hid, hlt⟩ := hrows it hit
          exact ⟨h1, le_trans h2 hle', n, hid, hlt⟩
      | some item =>
          rw [applyOp_update_some db id u t t' item hget]
          have gid : ∀ x : Item,
              (if x.id == some id then CRUDRepository.update x u t'
               else x).id = x.id := by
            intro x
            by_cases hx : (x.id == some id) = true
            · simp [hx, update_id_eq]
            · simp [hx]
          constructor
          · rw [List.pairwise_map]
            refine hpw.imp ?_
            intro a b hab
            rw [gid a, gid b]
            exact hab
          · intro it' hit'
            obtain ⟨x, hx, hgx⟩ := List.mem_map.mp hit'
            obtain ⟨h1, h2, n, hid, hlt⟩ := hrows x hx
            subst hgx
            by_cases hmatch : (x.id == some id) = true
            · rw [if_pos hmatch]
              refine ⟨?_, ?_, n, ?_, hlt⟩
              · rw [update_created_at_eq, update_updated_at_eq]
                cases htu : netChange x u <;> simp
                · exact h1
                · omega
              · rw [update_updated_at_eq]
                cases htu : netChange x u <;> simp
                omega
              · rw [update_id_eq]
                exact hid
            · rw [if_neg hmatch]
              exact ⟨h1, le_trans h2 hle', n, hid, hlt⟩
  | remove id =>
      cases hget : CRUDRepository.get db id with
      | none =>
          rw [applyOp_remove_none db id t t' hget]
          refine ⟨hpw, ?_⟩
          intro it hit
          obtain ⟨h1, h2, n, hid, hlt⟩ := hrows it hit
          exact ⟨h1, le_trans h2 hle', n, hid, hlt⟩
      | some item =>
          rw [applyOp_remove_some db id t t' item hget]
          constructor
          · exact List.Pairwise.sublist (List.eraseP_sublist _) hpw
          · intro it hit
            obtain ⟨h1, h2, n, hid, hlt⟩ :=
              hrows it (List.mem_of_mem_eraseP hit)
            exact ⟨h1, le_trans h2 hle', n, hid, hlt⟩

/-- Every reachable store state is well-formed. -/
lemma reachable_wf {db : DB} (h : Reachable db) : Wf db := by
  induction h with
  | init => exact wf_initDB
  | step op t t' _ hle hle2 ih => exact wf_applyOp op t t' ih hle hle2

/-- Every persisted row has `updated_at >= created_at`. -/
def createdBeforeUpdated (db : DB) : Prop :=
  ∀ it ∈ db.items, it.created_at ≤ it.updated_at

/-- C8: in every store state reachable by create, update and remove
operations (run at non-decreasing clock instants), every persisted row
satisfies `updated_at >= created_at`. -/
theorem reachable_updated_at_ge_created_at (db : DB) (h : Reachable db) :
    createdBeforeUpdated db := by
  intro it hit
  exact ((reachable_wf h).2 it hit).1

/-- Witness for C8 on a concrete reachable state (one created row). -/
theorem reachable_updated_at_ge_created_at_witness :
    createdBeforeUpdated (applyOp initDB (Op.create { name := "a" }) 5 6) :=
  reachable_updated_at_ge_created_at _
    (Reachable.step (Op.create { name := "a" }) 5 6 Reachable.init
      (by decide) (by decide))

/-- In a list with pairwise distinct primary keys, erasing the row with a
given id leaves no row with that id. -/
lemma find?_eraseP_id_none (l : List Item) (i : Nat)
    (hpw : l.Pairwise (fun a b => a.id ≠ b.id)) :
    (l.eraseP (fun x => x.id == some i)).find?
      (fun x => x.id == some i) = none := by
  induction l with
  | nil => rfl
  | cons x xs ih =>
      rw [List.pairwise_cons] at hpw
      obtain ⟨hhead, htail⟩ := hpw
      by_cases hx : (x.id == some i) = true
      · rw [List.eraseP_cons_of_pos (p := fun y : Item => y.id == some i) hx,
          List.find?_eq_none]
        intro y hy hyp
        have hxid : x.id = some i := by simpa using hx
        have hyid : y.id = some i := by simpa using hyp
        exact hhead y hy (by rw [hxid, hyid])
      · rw [List.eraseP_cons_of_neg (p := fun y : Item => y.id == some i) hx,
          List.find?_cons_of_neg (p := fun y : Item => y.id == some i) _ hx]
        exact ih htail

/-- C9: on any reachable store, deleting an id that is present and then
getting the same id yields `None` (the explicit absence result), not a
row. -/
theorem delete_then_get_absent (db : DB) (id : Nat) (it : Item)
    (hreach : Reachable db)
    (hget : CRUDRepository.get db id = some it) :
    CRUDRepository.get (item_service.delete_item db id).2 id = none := by
  have hpw := (reachable_wf hreach).1
  have hfind : db.items.find? (fun x => x.id == some id) = some it := hget
  simp only [item_service.delete_item, CRUDRepository.remove,
    CRUDRepository.get, hfind]
  exact find?_eraseP_id_none db.items id hpw

/-- A store holding exactly one created row (id 1). -/
def db1 : DB := applyOp initDB (Op.create { name := "x" }) 0 0

/-- Witness for C9: create a row, delete it, get it — absent. -/
theorem delete_then_get_absent_witness :
    CRUDRepository.get (item_service.delete_item db1 1).2 1 = none :=
  delete_then_get_absent db1 1
    { id := some 1, created_at := 0, updated_at := 0, name := "x",
      description := none, is_active := some true }
    (Reachable.step (Op.create { name := "x" }) 0 0 Reachable.init
      (by decide) (by decide))
    (by decide)

/-- C1: at the failing input (an id absent from the store), `remove`
dereferences the null result of the primary key lookup — `session.delete
(None)` raises `UnmappedInstanceError` — instead of failing with a
NotFound-class error; on a present id it does delete and return the
pre-deletion snapshot. -/
theorem remove_missing_id_unmapped_error :
    CRUDRepository.remove initDB 1 =
      Except.error RepoError.unmappedInstance ∧
    RepoError.unmappedInstance ≠ RepoError.notFound ∧
    CRUDRepository.remove db1 1 =
      Except.ok ({ id := some 1, created_at := 0, updated_at := 0,
                   name := "x", description := none,
                   is_active := some true },
                 { items := [], nextId := 2, now := 0 }) :=
  ⟨rfl, by decide, rfl⟩

/-- A store reached by creating one row and then updating it with the
explicitly-present null `{"is_active": null}` (allowed by the `ItemUpdate`
schema and kept by `exclude_unset`), leaving the row's nullable
`is_active` column NULL. -/
def nullDB : DB :=
  applyOp db1 (Op.update 1 { is_active := some none }) 0 0

/-- C6 counterexample: on the reachable store `nullDB`, whose single row
has `is_active` NULL, `filter({is_active: true})` and
`filter({is_active: false})` both return no rows, so the two result sets
do not together cover the full record set. -/
theorem filter_is_active_partition_counterexample :
    Reachable nullDB ∧
    (CRUDRepository.filter nullDB [("is_active", FVal.vBool true)]
        0 100 false).1 = [] ∧
    (CRUDRepository.filter nullDB [("is_active", FVal.vBool false)]
        0 100 false).1 = [] ∧
    nullDB.items ≠ [] := by
  refine ⟨?_, rfl, rfl, by decide⟩
  exact Reachable.step (Op.update 1 { is_active := some none }) 0 0
    (Reachable.step (Op.create { name := "x" }) 0 0 Reachable.init
      (by decide) (by decide))
    (by decide) (by decide)

lemma mem_filter_result (db : DB) (filters : List (String × FVal))
    (skip limit : Nat) (wp : Bool) (it : Item)
    (h : it ∈ (CRUDRepository.filter db filters skip limit wp).1) :
    it ∈ matchingRows db filters := by
  have h1 : (CRUDRepository.filter db filters skip limit wp).1 =
      ((matchingRows db filters).drop skip).take limit := by
    simp only [CRUDRepository.filter, filterQuery_eq_matchingRows]
    cases wp <;> rfl
  rw [h1] at h
  exact List.mem_of_mem_drop (List.mem_of_mem_take h)

lemma mem_matchingRows_is_active (db : DB) (b : Bool) (it : Item) :
    it ∈ matchingRows db [("is_active", FVal.vBool b)] ↔
      it ∈ db.items ∧ it.is_active = some b := by
  have hc : List.filter (fun p => hasattrItem p.1)
      [("is_active", FVal.vBool b)] = [("is_active", FVal.vBool b)] := rfl
  rw [matchingRows, hc, List.mem_filter]
  have he : ∀ x : Item,
      List.all [("is_active", FVal.vBool b)] (evalCond x) =
        (x.is_active == some b) := by
    intro x
    simp [evalCond]
  rw [he it]
  constructor
  · rintro ⟨hm, hb⟩
    exact ⟨hm, by simpa using hb⟩
  · rintro ⟨hm, hb⟩
    exact ⟨hm, by simp [hb]⟩

/-- C6 amended: `filter({is_active: true})` returns only rows with
`is_active` true and `filter({is_active: false})` only rows with it false;
the two (unwindowed) matching sets are disjoint, and together they cover
the rows whose nullable `is_active` column is non-null — a row with
`is_active` NULL belongs to neither set. -/
theorem filter_is_active_partition_amended (db : DB)
    (skip limit : Nat) (wp : Bool) :
    (∀ it ∈ (CRUDRepository.filter db [("is_active", FVal.vBool true)]
        skip limit wp).1, it.is_active = some true) ∧
    (∀ it ∈ (CRUDRepository.filter db [("is_active", FVal.vBool false)]
        skip limit wp).1, it.is_active = some false) ∧
    (∀ it : Item,
      ¬(it ∈ matchingRows db [("is_active", FVal.vBool true)] ∧
        it ∈ matchingRows db [("is_active", FVal.vBool false)])) ∧
    (∀ it ∈ db.items, it.is_active.isSome = true →
      it ∈ matchingRows db [("is_active", FVal.vBool true)] ∨
      it ∈ matchingRows db [("is_active", FVal.vBool false)]) := by
  refine ⟨?_, ?_, ?_, ?_⟩
  · intro it hit
    exact ((mem_matchingRows_is_active db true it).mp
      (mem_filter_result db _ skip limit wp it hit)).2
  · intro it hit
    exact ((mem_matchingRows_is_active db false it).mp
      (mem_filter_result db _ skip limit wp it hit)).2
  · rintro it ⟨ht, hf⟩
    have h1 := ((mem_matchingRows_is_active db true it).mp ht).2
    have h2 := ((mem_matchingRows_is_active db false it).mp hf).2
    rw [h1] at h2
    simp at h2
  · intro it hit hsome
    cases ha : it.is_active with
    | none => rw [ha] at hsome; simp at hsome
    | some b =>
        cases b with
        | true =>
            exact Or.inl ((mem_matchingRows_is_active db true it).mpr
              ⟨hit, ha⟩)
        | false =>
            exact Or.inr ((mem_matchingRows_is_active db false it).mpr
              ⟨hit, ha⟩)

/-- The single row held by `db1`. -/
def itemW : Item :=
  { id := some 1, created_at := 0, updated_at := 0, name := "x",
    description := none, is_active := some true }

/-- Witness for the amended C6 at the concrete store `db1`. -/
theorem filter_is_active_partition_amended_witness :
    itemW.is_active = some true ∧
    (itemW ∈ matchingRows db1 [("is_active", FVal.vBool true)] ∨
     itemW ∈ matchingRows db1 [("is_active", FVal.vBool false)]) :=
  ⟨(filter_is_active_partition_amended db1 0 100 true).1 itemW
      (by decide),
   (filter_is_active_partition_amended db1 0 100 true).2.2.2 itemW
      (by decide) (by decide)⟩

end Scaffold
